import Mathlib

/-!
Verification development for the security-report parsing and deduplication
engine (`SecurityReportParser` in `report/parser.py`) and the generation loop of
`report/llmgenerator.py`, shallowly embedded in Lean 4.

Python scalar values carried in finding dictionaries are modelled by `Val`
(null / string / number / boolean) with Python truthiness; machine floats that
only ever flow through truthiness tests and equality are modelled as rationals.
-/

namespace Report

/-- A Python scalar value as carried in the finding dictionaries: `None`,
a string, a number (modelled as a rational) or a boolean.  `Val.null` also
stands for an absent dictionary key, matching `dict.get`'s `None` default. -/
inductive Val where
  | null : Val
  | str : String → Val
  | num : Rat → Val
  | bool : Bool → Val
deriving DecidableEq

/-- Python truthiness of a scalar: `None`, `""` and `0` are falsy. -/
def Val.truthy : Val → Bool
  | .null => false
  | .str s => s != ""
  | .num q => q != 0
  | .bool b => b

/-- A normalized finding as produced by the five extractors: the dictionary
keys written by `parse_trivy` / `parse_grype` / `parse_checkov` /
`parse_semgrep` / `parse_owasp_zap`.  A key a given format never writes is
`Val.null` (what `dict.get` would return for it).  `occurrences` is the
optional per-record occurrence count read by `vuln.get('occurrences', 1)`. -/
structure Finding where
  vuln_id : Val
  type : Val
  title : Val
  affected_component : Val
  affected_version : Val
  affected_file : Val
  affected_line : Val
  affected_url : Val
  severity : Val
  description : Val
  cvss_score : Val
  cwe : Val
  fixed_version : Val
  source : Val
  occurrences : Option Nat
deriving DecidableEq

/-- The count `vuln.get('occurrences', 1)`. -/
def Finding.occGet (v : Finding) : Nat := v.occurrences.getD 1

/-- A deduplicated vulnerability entry: the shape of the values of
`self.deduplicated_vulns` after `deduplicate_and_merge` has initialized it
(the finding dictionary with `affected_component` popped into the list
`affected_components`, plus `pipeline_runs` and the `occurrences` counter). -/
structure Entry where
  vuln_id : Val
  type : Val
  title : Val
  affected_components : List Val
  affected_version : Val
  affected_file : Val
  affected_line : Val
  affected_url : Val
  severity : Val
  description : Val
  cvss_score : Val
  cwe : Val
  fixed_version : Val
  source : Val
  pipeline_runs : List Nat
  occurrences : Nat
deriving DecidableEq

/-- Initialization of a new entry (the `else` branch of
`deduplicate_and_merge`): move the single `affected_component` into a
one-element list, set `pipeline_runs = [run_id]` and
`occurrences = vuln.get('occurrences', 1)`. -/
def initEntry (vuln : Finding) (run_id : Nat) : Entry :=
  { vuln_id := vuln.vuln_id
    type := vuln.type
    title := vuln.title
    affected_components := [vuln.affected_component]
    affected_version := vuln.affected_version
    affected_file := vuln.affected_file
    affected_line := vuln.affected_line
    affected_url := vuln.affected_url
    severity := vuln.severity
    description := vuln.description
    cvss_score := vuln.cvss_score
    cwe := vuln.cwe
    fixed_version := vuln.fixed_version
    source := vuln.source
    pipeline_runs := [run_id]
    occurrences := vuln.occGet }

/-- One scalar-metadata update step of the merge:
`if not existing.get(field) and vuln.get(field): existing[field] = vuln[field]`. -/
def updateScalar (cur incoming : Val) : Val :=
  if !cur.truthy && incoming.truthy then incoming else cur

/-- The step `if vuln['affected_component'] not in existing['affected_components']:
existing['affected_components'].append(...)`. -/
def mergeComponent (e : Entry) (v : Finding) : Entry :=
  { e with affected_components :=
      if v.affected_component ∈ e.affected_components then e.affected_components
      else e.affected_components ++ [v.affected_component] }

/-- The loop `for field in ['cvss_score', 'fixed_version', 'description',
'cwe']` of `deduplicate_and_merge`. -/
def mergeScalars (e : Entry) (v : Finding) : Entry :=
  { e with
      cvss_score := updateScalar e.cvss_score v.cvss_score
      fixed_version := updateScalar e.fixed_version v.fixed_version
      description := updateScalar e.description v.description
      cwe := updateScalar e.cwe v.cwe }

/-- The step `if run_id not in existing['pipeline_runs']:
existing['pipeline_runs'].append(run_id)`. -/
def mergeRun (e : Entry) (run_id : Nat) : Entry :=
  { e with pipeline_runs :=
      if run_id ∈ e.pipeline_runs then e.pipeline_runs
      else e.pipeline_runs ++ [run_id] }

/-- The full update of an existing entry in `deduplicate_and_merge`:
components, the four scalar fields, pipeline runs, then
`existing['occurrences'] += vuln.get('occurrences', 1)`. -/
def mergeExisting (e : Entry) (v : Finding) (run_id : Nat) : Entry :=
  let e1 := mergeComponent e v
  let e2 := mergeScalars e1 v
  let e3 := mergeRun e2 run_id
  { e3 with occurrences := e3.occurrences + v.occGet }

/-- One iteration of the `for vuln in vulns` loop of `deduplicate_and_merge`
over the keyed collection, modelled as an insertion-ordered association list
(Python dicts preserve insertion order; `values()` is the list itself). -/
def mergeOne : List Entry → Finding → Nat → List Entry
  | [], vuln, run_id => [initEntry vuln run_id]
  | e :: rest, vuln, run_id =>
    if e.vuln_id = vuln.vuln_id then mergeExisting e vuln run_id :: rest
    else e :: mergeOne rest vuln run_id

/-- The method `deduplicate_and_merge(self, vulns, run_id)`, with the mutated
`self.deduplicated_vulns` made an explicit argument and result. -/
def deduplicate_and_merge (c : List Entry) (vulns : List Finding) (run_id : Nat) :
    List Entry :=
  vulns.foldl (fun acc vuln => mergeOne acc vuln run_id) c

/-- Dictionary lookup `self.deduplicated_vulns.get(key)` on the association
list model. -/
def lookup : List Entry → Val → Option Entry
  | [], _ => none
  | e :: rest, k => if e.vuln_id = k then some e else lookup rest k

/-- The `occurrences` counter stored under a key, `0` when the key is absent. -/
def occOf (c : List Entry) (k : Val) : Nat :=
  match lookup c k with
  | some e => e.occurrences
  | none => 0

/-- A merge script: a sequence of `deduplicate_and_merge` calls, each with its
finding batch and `run_id`. -/
def scriptFold (c : List Entry) : List (List Finding × Nat) → List Entry
  | [] => c
  | b :: rest => scriptFold (deduplicate_and_merge c b.1 b.2) rest

/-- Running a merge script from the empty collection a fresh
`SecurityReportParser` starts with. -/
def runScript (s : List (List Finding × Nat)) : List Entry := scriptFold [] s

/-- All findings contributed by a script, in merge order. -/
def scriptFindings (s : List (List Finding × Nat)) : List Finding :=
  (s.map Prod.fst).flatten

/-! ## Per-format input documents and extractors

Each document structure carries exactly the JSON paths the corresponding
extractor reads.  A field read with `dict.get(k)` (no default) is a `Val`,
with `Val.null` standing for an absent key; a field read with a non-null
default is an `Option` so the default can be applied exactly where the
source applies it.  Chained lookups whose intermediate defaults collapse
(`d.get(a, {}).get(b)`) are flattened into one field. -/

/-- ASCII `str.upper()`. -/
def strUpper (s : String) : String := s.map Char.toUpper

/-- One element of `Results[].Vulnerabilities[]` in a Trivy report. -/
structure TrivyVuln where
  VulnerabilityID : Val
  Title : Val
  PkgName : Val
  InstalledVersion : Val
  Severity : Option Val
  Description : Val
  CVSS_nvd_V3Score : Val
  FixedVersion : Val
deriving DecidableEq

/-- One element of `Results[]` in a Trivy report. -/
structure TrivyResult where
  Vulnerabilities : List TrivyVuln
deriving DecidableEq

/-- A Trivy container-scan document, as read by `parse_trivy`. -/
structure TrivyDoc where
  Results : List TrivyResult
deriving DecidableEq

/-- The finding dictionary built for one Trivy vulnerability. -/
def trivyFinding (vuln : TrivyVuln) : Finding :=
  { vuln_id := vuln.VulnerabilityID
    type := .str "vulnerability"
    title := vuln.Title
    affected_component := vuln.PkgName
    affected_version := vuln.InstalledVersion
    affected_file := .null
    affected_line := .null
    affected_url := .null
    severity := vuln.Severity.getD (.str "UNKNOWN")
    description := vuln.Description
    cvss_score := vuln.CVSS_nvd_V3Score
    cwe := .null
    fixed_version := vuln.FixedVersion
    source := .str "trivy"
    occurrences := none }

/-- The extractor `parse_trivy` (the warning print has no effect on the returned list). -/
def parse_trivy (data : TrivyDoc) (_run_id : Nat) : List Finding :=
  (data.Results.map (fun result => result.Vulnerabilities.map trivyFinding)).flatten

/-- One element of `vulnerability.cvss[]` in a Grype match. -/
structure GrypeCvss where
  metrics_baseScore : Val
deriving DecidableEq

/-- One element of `vulnerability.cwes[]` in a Grype match. -/
structure GrypeCwe where
  cwe : Val
deriving DecidableEq

/-- The `vulnerability` object of a Grype match.  `description` is an
`Option String` because the source both calls `.split('\n')` on
`get('description', '')` (so it must be a string when present) and stores
`get('description')` (null when absent). -/
structure GrypeVulnerability where
  id : Val
  description : Option String
  severity : Option Val
  cvss : List GrypeCvss
  cwes : List GrypeCwe
  fix_versions : List Val
deriving DecidableEq

/-- The `artifact` object of a Grype match. -/
structure GrypeArtifact where
  name : Val
  version : Val
deriving DecidableEq

/-- One element of `matches[]` in a Grype report. -/
structure GrypeMatch where
  vulnerability : GrypeVulnerability
  artifact : GrypeArtifact
deriving DecidableEq

/-- A Grype SCA document, as read by `parse_grype` (`matches'` models the
JSON key `matches`, a reserved word in Lean). -/
structure GrypeDoc where
  matches' : List GrypeMatch
deriving DecidableEq

/-- The finding dictionary built for one Grype match. -/
def grypeFinding (m : GrypeMatch) : Finding :=
  { vuln_id := m.vulnerability.id
    type := .str "dependency"
    title := .str (((m.vulnerability.description.getD "").splitOn "\n").headD "")
    affected_component := m.artifact.name
    affected_version := m.artifact.version
    affected_file := .null
    affected_line := .null
    affected_url := .null
    severity := m.vulnerability.severity.getD (.str "UNKNOWN")
    description := match m.vulnerability.description with
      | some s => .str s
      | none => .null
    cvss_score := match m.vulnerability.cvss with
      | c :: _ => c.metrics_baseScore
      | [] => .null
    cwe := match m.vulnerability.cwes with
      | c :: _ => c.cwe
      | [] => .null
    fixed_version := match m.vulnerability.fix_versions with
      | v :: _ => v
      | [] => .null
    source := .str "grype"
    occurrences := none }

/-- The extractor `parse_grype`. -/
def parse_grype (data : GrypeDoc) (_run_id : Nat) : List Finding :=
  data.matches'.map grypeFinding

/-- One element of `results.failed_checks[]` in a Checkov report.
`check_result_result` flattens `result.get('check_result', {}).get('result',
'UNKNOWN')`; `none` stands for either absent key (yielding the default). -/
structure CheckovCheck where
  check_id : Val
  check_name : Val
  resource : Val
  file_path : Val
  check_result_result : Option Val
  description : Val
deriving DecidableEq

/-- A Checkov IaC document, as read by `parse_checkov`. -/
structure CheckovDoc where
  results_failed_checks : List CheckovCheck
deriving DecidableEq

/-- The finding dictionary built for one failed Checkov check, with
`severity_map = {'passed': 'LOW', 'failed': 'HIGH'}` and default `'MEDIUM'`. -/
def checkovFinding (result : CheckovCheck) : Finding :=
  { vuln_id := result.check_id
    type := .str "iac_violation"
    title := result.check_name
    affected_component := result.resource
    affected_version := .null
    affected_file := result.file_path
    affected_line := .null
    affected_url := .null
    severity :=
      if result.check_result_result.getD (.str "UNKNOWN") = .str "passed" then .str "LOW"
      else if result.check_result_result.getD (.str "UNKNOWN") = .str "failed" then .str "HIGH"
      else .str "MEDIUM"
    description := result.description
    cvss_score := .null
    cwe := .null
    fixed_version := .null
    source := .str "checkov"
    occurrences := none }

/-- The extractor `parse_checkov`. -/
def parse_checkov (data : CheckovDoc) (_run_id : Nat) : List Finding :=
  data.results_failed_checks.map checkovFinding

/-- One element of `results[]` in a Semgrep report.  `extra_severity`
flattens `result.get('extra', {}).get('severity', 'INFO')` (a string, since
the source calls `.upper()` on it); `extra_message` flattens
`result.get('extra', {}).get('message', '')`; `start_line` flattens
`result.get('start', {}).get('line')`. -/
structure SemgrepResult where
  check_id : Val
  path : Val
  start_line : Val
  extra_severity : Option String
  extra_message : Option Val
deriving DecidableEq

/-- A Semgrep SAST document, as read by `parse_semgrep`. -/
structure SemgrepDoc where
  results : List SemgrepResult
deriving DecidableEq

/-- The finding dictionary built for one Semgrep result, with
`severity_map = {'INFO': 'LOW', 'WARNING': 'MEDIUM', 'ERROR': 'HIGH'}` and
default `'MEDIUM'`. -/
def semgrepFinding (result : SemgrepResult) : Finding :=
  { vuln_id := result.check_id
    type := .str "sast_finding"
    title := result.check_id
    affected_component := result.path
    affected_version := .null
    affected_file := .null
    affected_line := result.start_line
    affected_url := .null
    severity :=
      if strUpper (result.extra_severity.getD "INFO") = "INFO" then .str "LOW"
      else if strUpper (result.extra_severity.getD "INFO") = "WARNING" then .str "MEDIUM"
      else if strUpper (result.extra_severity.getD "INFO") = "ERROR" then .str "HIGH"
      else .str "MEDIUM"
    description := result.extra_message.getD (.str "")
    cvss_score := .null
    cwe := .null
    fixed_version := .null
    source := .str "semgrep"
    occurrences := none }

/-- The extractor `parse_semgrep`. -/
def parse_semgrep (data : SemgrepDoc) (_run_id : Nat) : List Finding :=
  data.results.map semgrepFinding

/-- One element of `site[].alerts[]` in an OWASP ZAP report.  `riskcode` is
an `Option String`: the source truthiness-tests it and calls `.upper()`. -/
structure ZapAlert where
  pluginid : Val
  name : Val
  url : Val
  riskcode : Option String
  cwe : Val
  desc : Val
deriving DecidableEq

/-- One element of `site[]` in an OWASP ZAP report. -/
structure ZapSite where
  name : Val
  alerts : List ZapAlert
deriving DecidableEq

/-- An OWASP ZAP DAST document, as read by `parse_owasp_zap`. -/
structure ZapDoc where
  site : List ZapSite
deriving DecidableEq

/-- The finding dictionary built for one ZAP alert:
`alert.get('riskcode').upper() if alert.get('riskcode') else 'MEDIUM'`
(an absent or empty `riskcode` is falsy). -/
def zapFinding (site : ZapSite) (alert : ZapAlert) : Finding :=
  { vuln_id := alert.pluginid
    type := .str "dast_finding"
    title := alert.name
    affected_component := site.name
    affected_version := .null
    affected_file := .null
    affected_line := .null
    affected_url := alert.url
    severity := match alert.riskcode with
      | some s => if s != "" then .str (strUpper s) else .str "MEDIUM"
      | none => .str "MEDIUM"
    description := alert.desc
    cvss_score := .null
    cwe := alert.cwe
    fixed_version := .null
    source := .str "owasp-zap"
    occurrences := none }

/-- The per-alert findings list built by the body of `parse_owasp_zap`
(before its missing-ID warning block). -/
def zapRawFindings (data : ZapDoc) : List Finding :=
  (data.site.map (fun site => site.alerts.map (zapFinding site))).flatten

/-- The extractor `parse_owasp_zap` on a successfully parsed document: it counts findings
with `vuln_id is None` and, when the count is positive, filters them out of
its own return value (unlike every other extractor). -/
def parse_owasp_zap (data : ZapDoc) (_run_id : Nat) : List Finding :=
  let vulns := zapRawFindings data
  let none_count := (vulns.filter (fun v => v.vuln_id = Val.null)).length
  if none_count > 0 then vulns.filter (fun v => v.vuln_id ≠ Val.null) else vulns

/-! ## File-level parsing and the `run` orchestration

Opening a report file and `json.load`-ing it can fail; a work item therefore
carries `Except String Doc`: `.error msg` is a file whose contents fail to
parse as JSON (or cannot be read), `.ok doc` a successfully loaded document.
Only `parse_owasp_zap` wraps that step in `try/except`. -/

/-- A crawled work item as dispatched by `parse_report`: its detected format
together with the result of loading its JSON payload.  `unrecognized` is a
file whose format `detect_report_format` did not match (`parse_report` falls
through to `return []`). -/
inductive ReportFile where
  | trivy (payload : Except String TrivyDoc)
  | grype (payload : Except String GrypeDoc)
  | checkov (payload : Except String CheckovDoc)
  | semgrep (payload : Except String SemgrepDoc)
  | zap (payload : Except String ZapDoc)
  | unrecognized

/-- The `try/except` wrapper of `parse_owasp_zap` around reading and
`json.load`-ing the file: a failure is caught, logged, and turned into an
empty finding list. -/
def parse_owasp_zap_file (payload : Except String ZapDoc) (run_id : Nat) :
    Except String (List Finding) :=
  match payload with
  | .error _ => .ok []
  | .ok data => .ok (parse_owasp_zap data run_id)

/-- The dispatcher `parse_report`: dispatch on the detected format.  Every extractor except
`parse_owasp_zap` lets a JSON-load failure propagate. -/
def parse_report (f : ReportFile) (run_id : Nat) : Except String (List Finding) :=
  match f with
  | .trivy payload => payload.map (fun data => parse_trivy data run_id)
  | .grype payload => payload.map (fun data => parse_grype data run_id)
  | .checkov payload => payload.map (fun data => parse_checkov data run_id)
  | .semgrep payload => payload.map (fun data => parse_semgrep data run_id)
  | .zap payload => parse_owasp_zap_file payload run_id
  | .unrecognized => .ok []

/-- The `for file_path, report_type, pipeline_run in files` loop of `run`:
parse each file, drop findings with `vuln_id is None`
(`vulns = [v for v in vulns if v.get('vuln_id') is not None]`), and merge.
An uncaught parse error aborts the whole loop. -/
def runFold (acc : List Entry) : List (ReportFile × Nat) → Except String (List Entry)
  | [] => .ok acc
  | (f, pipeline_run) :: rest =>
    match parse_report f pipeline_run with
    | .error e => .error e
    | .ok vulns =>
      runFold
        (deduplicate_and_merge acc
          (vulns.filter (fun v => v.vuln_id ≠ Val.null)) pipeline_run)
        rest

/-- The method `run`, from the crawl's work list onwards.  `.ok c` means the loop
completed and `save_parsed_reports` persisted the collection `c` (as the JSON
array of its entries, an empty array when `c = []`); `.error e` means the
crawl aborted with an uncaught parse error and no output file was written. -/
def run (files : List (ReportFile × Nat)) : Except String (List Entry) :=
  runFold [] files

/-! ## The report crawler -/

/-- Python `str.isdigit()` restricted to ASCII strings: nonempty and all
decimal digits.  This is exactly the condition for the string to parse as a
nonnegative integer. -/
def str_isdigit (s : String) : Bool :=
  s != "" && s.toList.all Char.isDigit

/-- Python `int()` on a digit string. -/
def digitsToNat (s : String) : Nat :=
  s.toList.foldl (fun n c => n * 10 + (c.toNat - 48)) 0

/-- Python `Path(root).name`: the last slash-separated component of a path. -/
def pathName (root : String) : String :=
  (root.splitOn "/").getLastD ""

/-- Python `os.path.join(root, filename)` on POSIX paths. -/
def pathJoin (root filename : String) : String :=
  root ++ "/" ++ filename

/-- Substring membership, `path.__contains__(marker)`. -/
def strContains (s pat : String) : Bool :=
  s.toList.tails.any (fun t => pat.toList.isPrefixOf t)

/-- The classifier `detect_report_format`: substring markers checked in the source's fixed
order; `none` models Python's implicit `None` when no marker matches. -/
def detect_report_format (file_path : String) : Option String :=
  if strContains file_path "container-scan" then some "trivy"
  else if strContains file_path "sast-reports" then some "semgrep"
  else if strContains file_path "iac-scan" then some "checkov"
  else if strContains file_path "cve-reports" then some "grype"
  else if strContains file_path "dast-reports" then some "owasp-zap"
  else none

/-- One `(root, dirs, filenames)` triple yielded by `os.walk`. -/
structure WalkEntry where
  root : String
  filenames : List String
deriving DecidableEq

/-- The crawler `crawl_reports`, over the abstract walk sequence: for each `.json` file
compute its path, detected format and the containing directory's name, and
append a work item only when that name `isdigit()`. -/
def crawl_reports (walk : List WalkEntry) : List (String × Option String × Nat) :=
  walk.foldl
    (fun files w =>
      w.filenames.foldl
        (fun files filename =>
          if filename.endsWith ".json" then
            let file_path := pathJoin w.root filename
            let report_type := detect_report_format file_path
            let pipeline_run := pathName w.root
            if str_isdigit pipeline_run then
              files ++ [(file_path, report_type, digitsToNat pipeline_run)]
            else files
          else files)
        files)
    []

/-- The contribution of a single walked file to the crawl's work list. -/
def crawlFile (root filename : String) : List (String × Option String × Nat) :=
  if filename.endsWith ".json" then
    if str_isdigit (pathName root) then
      [(pathJoin root filename, detect_report_format (pathJoin root filename),
        digitsToNat (pathName root))]
    else []
  else []

/-! ## The generation loop of `llmgenerator.py` -/

/-- The outcome of one HTTP POST to the model endpoint, as observed by
`call_ollama`: a response with its status code and the optional `response`
field of its JSON body, a `requests.exceptions.Timeout`, or any other
exception. -/
inductive HttpResult where
  | response (status : Nat) (body : Option String)
  | timeout
  | exception (msg : String)
deriving DecidableEq

/-- The call `call_ollama`, with the wall-clock duration it also returns dropped:
status 200 yields `(response.json().get("response", ""), True)`; any other
status, a timeout, or an exception yields `(None, False)`.  No retry. -/
def call_ollama (r : HttpResult) : Option String × Bool :=
  match r with
  | .response status body =>
    if status = 200 then (some (body.getD ""), true) else (none, false)
  | .timeout => (none, false)
  | .exception _ => (none, false)

/-- Python truthiness of `call_ollama`'s optional response string. -/
def truthyOptStr : Option String → Bool
  | none => false
  | some s => s != ""

/-- One metadata record appended to `policy_ids_processed` (durations
dropped). -/
structure ItemRecord where
  vuln_id : String
  success : Bool
deriving DecidableEq

/-- The mutable state of `_generate_policies`: the `generated_policies` dict
(insertion-ordered association list) and the tracked metadata counters. -/
structure GenState where
  generated_policies : List (String × String)
  policy_ids_processed : List ItemRecord
  successful_generations : Nat
  failed_generations : Nat
deriving DecidableEq

/-- Python dict assignment `d[k] = v` on the association-list model. -/
def dictInsert (l : List (String × String)) (k v : String) : List (String × String) :=
  if l.any (fun p => p.1 = k) then l.map (fun p => if p.1 = k then (k, v) else p)
  else l ++ [(k, v)]

/-- One iteration of the `for i, (vuln_id, policy) in enumerate(...)` loop of
`_generate_policies`: call the model, append the per-item metadata record,
and add the entry to `generated_policies` only `if success and response`. -/
def genStep (st : GenState) (item : String × HttpResult) : GenState :=
  let res := call_ollama item.2
  let st1 := { st with
    policy_ids_processed := st.policy_ids_processed ++ [ItemRecord.mk item.1 res.2] }
  if res.2 && truthyOptStr res.1 then
    { st1 with
        generated_policies := dictInsert st1.generated_policies item.1 (res.1.getD "")
        successful_generations := st1.successful_generations + 1 }
  else
    { st1 with failed_generations := st1.failed_generations + 1 }

/-- The loop `_generate_policies`, over the sorted `(vuln_id, policy)` items with each
item's HTTP outcome supplied as input; prompts and durations are irrelevant
to the recorded control flow and are dropped. -/
def generate_policies (items : List (String × HttpResult)) : GenState :=
  items.foldl genStep ⟨[], [], 0, 0⟩

/-! ## Concrete sample data for evaluating the model -/

/-- A sample trivy-shaped finding: `CVE-1` on `openssl` with CVSS 7.5. -/
def fA : Finding :=
  { vuln_id := .str "CVE-1"
    type := .str "vulnerability"
    title := .str "flaw in openssl"
    affected_component := .str "openssl"
    affected_version := .null
    affected_file := .null
    affected_line := .null
    affected_url := .null
    severity := .str "HIGH"
    description := .null
    cvss_score := .num (mkRat 15 2)
    cwe := .null
    fixed_version := .null
    source := .str "trivy"
    occurrences := none }

/-- A sample grype-shaped finding: the same `CVE-1` on `libssl` with CVSS 9.0
and conflicting metadata. -/
def fB : Finding :=
  { fA with
      affected_component := .str "libssl"
      affected_version := .str "1.0"
      severity := .str "CRITICAL"
      title := .str "other title"
      cvss_score := .num 9
      cwe := .str "CWE-476"
      source := .str "grype" }

/-- A Semgrep result with a missing `check_id` (its `vuln_id` is `None`). -/
def smNull : SemgrepResult :=
  { check_id := .null
    path := .str "app.py"
    start_line := .null
    extra_severity := some "ERROR"
    extra_message := some (.str "tainted input") }

/-- A Semgrep result with a proper `check_id`. -/
def smGood : SemgrepResult :=
  { check_id := .str "python.lang.security.audit.eval-detected"
    path := .str "app.py"
    start_line := .null
    extra_severity := some "WARNING"
    extra_message := some (.str "eval detected") }

/-- A Semgrep document carrying one missing-ID result and one proper one. -/
def smDoc : SemgrepDoc := ⟨[smNull, smGood]⟩

/-- A ZAP document with a single alert whose `pluginid` is missing. -/
def zapDocEx : ZapDoc :=
  ⟨[{ name := .str "http://site1"
      alerts := [{ pluginid := .null
                   name := .str "X-Frame-Options Header Not Set"
                   url := .str "http://site1/a"
                   riskcode := some "2"
                   cwe := .str "1021"
                   desc := .str "missing header" }] }]⟩

/-! ## Basic lemmas about the merge engine -/

@[simp] theorem dedup_nil (c : List Entry) (r : Nat) :
    deduplicate_and_merge c [] r = c := rfl

@[simp] theorem dedup_cons (c : List Entry) (v : Finding) (vs : List Finding) (r : Nat) :
    deduplicate_and_merge c (v :: vs) r = deduplicate_and_merge (mergeOne c v r) vs r := rfl

@[simp] theorem scriptFold_nil (c : List Entry) : scriptFold c [] = c := rfl

@[simp] theorem scriptFold_cons (c : List Entry) (b : List Finding × Nat)
    (rest : List (List Finding × Nat)) :
    scriptFold c (b :: rest) = scriptFold (deduplicate_and_merge c b.1 b.2) rest := rfl

@[simp] theorem mergeExisting_vuln_id (e : Entry) (v : Finding) (r : Nat) :
    (mergeExisting e v r).vuln_id = e.vuln_id := rfl

@[simp] theorem mergeExisting_type (e : Entry) (v : Finding) (r : Nat) :
    (mergeExisting e v r).type = e.type := rfl

@[simp] theorem mergeExisting_title (e : Entry) (v : Finding) (r : Nat) :
    (mergeExisting e v r).title = e.title := rfl

@[simp] theorem mergeExisting_severity (e : Entry) (v : Finding) (r : Nat) :
    (mergeExisting e v r).severity = e.severity := rfl

@[simp] theorem mergeExisting_source (e : Entry) (v : Finding) (r : Nat) :
    (mergeExisting e v r).source = e.source := rfl

@[simp] theorem mergeExisting_affected_version (e : Entry) (v : Finding) (r : Nat) :
    (mergeExisting e v r).affected_version = e.affected_version := rfl

@[simp] theorem mergeExisting_affected_file (e : Entry) (v : Finding) (r : Nat) :
    (mergeExisting e v r).affected_file = e.affected_file := rfl

@[simp] theorem mergeExisting_affected_line (e : Entry) (v : Finding) (r : Nat) :
    (mergeExisting e v r).affected_line = e.affected_line := rfl

@[simp] theorem mergeExisting_affected_url (e : Entry) (v : Finding) (r : Nat) :
    (mergeExisting e v r).affected_url = e.affected_url := rfl

@[simp] theorem mergeExisting_occurrences (e : Entry) (v : Finding) (r : Nat) :
    (mergeExisting e v r).occurrences = e.occurrences + v.occGet := rfl

@[simp] theorem mergeExisting_cvss_score (e : Entry) (v : Finding) (r : Nat) :
    (mergeExisting e v r).cvss_score = updateScalar e.cvss_score v.cvss_score := rfl

@[simp] theorem mergeExisting_fixed_version (e : Entry) (v : Finding) (r : Nat) :
    (mergeExisting e v r).fixed_version = updateScalar e.fixed_version v.fixed_version := rfl

@[simp] theorem mergeExisting_description (e : Entry) (v : Finding) (r : Nat) :
    (mergeExisting e v r).description = updateScalar e.description v.description := rfl

@[simp] theorem mergeExisting_cwe (e : Entry) (v : Finding) (r : Nat) :
    (mergeExisting e v r).cwe = updateScalar e.cwe v.cwe := rfl

@[simp] theorem mergeExisting_affected_components (e : Entry) (v : Finding) (r : Nat) :
    (mergeExisting e v r).affected_components =
      if v.affected_component ∈ e.affected_components then e.affected_components
      else e.affected_components ++ [v.affected_component] := rfl

@[simp] theorem mergeExisting_pipeline_runs (e : Entry) (v : Finding) (r : Nat) :
    (mergeExisting e v r).pipeline_runs =
      if r ∈ e.pipeline_runs then e.pipeline_runs
      else e.pipeline_runs ++ [r] := rfl

@[simp] theorem initEntry_vuln_id (v : Finding) (r : Nat) :
    (initEntry v r).vuln_id = v.vuln_id := rfl

@[simp] theorem initEntry_occurrences (v : Finding) (r : Nat) :
    (initEntry v r).occurrences = v.occGet := rfl

@[simp] theorem initEntry_affected_components (v : Finding) (r : Nat) :
    (initEntry v r).affected_components = [v.affected_component] := rfl

@[simp] theorem initEntry_pipeline_runs (v : Finding) (r : Nat) :
    (initEntry v r).pipeline_runs = [r] := rfl

theorem updateScalar_of_truthy {cur : Val} (x : Val) (h : cur.truthy = true) :
    updateScalar cur x = cur := by
  simp [updateScalar, h]

theorem lookup_mergeOne_self (c : List Entry) (v : Finding) (r : Nat) :
    lookup (mergeOne c v r) v.vuln_id =
      some (match lookup c v.vuln_id with
            | some e => mergeExisting e v r
            | none => initEntry v r) := by
  induction c with
  | nil => simp [mergeOne, lookup]
  | cons e rest ih =>
    by_cases h : e.vuln_id = v.vuln_id
    · simp [mergeOne, lookup, h]
    · simp [mergeOne, lookup, h, ih]

theorem lookup_mergeOne_ne (c : List Entry) (v : Finding) (r : Nat) (k : Val)
    (h : k ≠ v.vuln_id) : lookup (mergeOne c v r) k = lookup c k := by
  induction c with
  | nil =>
    simp [mergeOne, lookup]
    exact fun hh => absurd hh.symm h
  | cons e rest ih =>
    by_cases he : e.vuln_id = v.vuln_id
    · have hvk : ¬ v.vuln_id = k := fun hh => h hh.symm
      have hek : ¬ e.vuln_id = k := by rw [he]; exact hvk
      simp [mergeOne, lookup, he, hek, hvk]
    · simp only [mergeOne, if_neg he]
      by_cases hek : e.vuln_id = k
      · simp [lookup, hek]
      · simp [lookup, hek, ih]

theorem lookup_mergeOne_of_some {c : List Entry} {k : Val} {e : Entry}
    (v : Finding) (r : Nat) (h : lookup c k = some e) :
    lookup (mergeOne c v r) k =
      some (if v.vuln_id = k then mergeExisting e v r else e) := by
  by_cases hk : v.vuln_id = k
  · subst hk
    rw [lookup_mergeOne_self, h]
    simp
  · rw [lookup_mergeOne_ne c v r k (fun hh => hk hh.symm), h]
    simp [hk]

theorem occOf_mergeOne (c : List Entry) (v : Finding) (r : Nat) (k : Val) :
    occOf (mergeOne c v r) k = occOf c k + (if v.vuln_id = k then v.occGet else 0) := by
  by_cases hk : v.vuln_id = k
  · subst hk
    cases h : lookup c v.vuln_id with
    | none => simp [occOf, lookup_mergeOne_self, h]
    | some e => simp [occOf, lookup_mergeOne_self, h]
  · rw [occOf, lookup_mergeOne_ne c v r k (fun hh => hk hh.symm)]
    simp [occOf, hk]

theorem occOf_dedup (c : List Entry) (vulns : List Finding) (r : Nat) (k : Val) :
    occOf (deduplicate_and_merge c vulns r) k =
      occOf c k + ((vulns.filter (fun v => v.vuln_id = k)).map Finding.occGet).sum := by
  induction vulns generalizing c with
  | nil => simp
  | cons v vs ih =>
    rw [dedup_cons, ih, occOf_mergeOne]
    by_cases hk : v.vuln_id = k
    all_goals simp [hk]
    all_goals omega

theorem scriptFindings_cons (b : List Finding × Nat) (rest : List (List Finding × Nat)) :
    scriptFindings (b :: rest) = b.1 ++ scriptFindings rest := by
  simp [scriptFindings]

theorem occOf_scriptFold (c : List Entry) (s : List (List Finding × Nat)) (k : Val) :
    occOf (scriptFold c s) k =
      occOf c k +
        (((scriptFindings s).filter (fun v => v.vuln_id = k)).map Finding.occGet).sum := by
  induction s generalizing c with
  | nil => simp [scriptFindings]
  | cons b rest ih =>
    rw [scriptFold_cons, ih, occOf_dedup, scriptFindings_cons]
    simp [List.filter_append]
    omega

/-- C1: in `deduplicate_and_merge`, each of the four scalar metadata fields
`cvss_score`, `fixed_version`, `description`, `cwe` is first-wins: once the
entry under a key holds a populated (truthy, i.e. non-`None`/non-empty) value
for the field, no later merged finding ever changes it, whatever further
findings are merged for that key. -/
theorem claim1_scalar_first_wins
    (c : List Entry) (vulns : List Finding) (r : Nat) (k : Val) (e : Entry)
    (h : lookup c k = some e) :
    ∃ e', lookup (deduplicate_and_merge c vulns r) k = some e' ∧
      (e.cvss_score.truthy = true → e'.cvss_score = e.cvss_score) ∧
      (e.fixed_version.truthy = true → e'.fixed_version = e.fixed_version) ∧
      (e.description.truthy = true → e'.description = e.description) ∧
      (e.cwe.truthy = true → e'.cwe = e.cwe) := by
  induction vulns generalizing c e with
  | nil => exact ⟨e, h, fun _ => rfl, fun _ => rfl, fun _ => rfl, fun _ => rfl⟩
  | cons v vs ih =>
    obtain ⟨e', he', p1, p2, p3, p4⟩ :=
      ih (mergeOne c v r) _ (lookup_mergeOne_of_some v r h)
    refine ⟨e', by simpa using he', ?_, ?_, ?_, ?_⟩
    · intro ht
      have h3 : (if v.vuln_id = k then mergeExisting e v r else e).cvss_score
          = e.cvss_score := by
        by_cases hk : v.vuln_id = k <;> simp [hk, updateScalar_of_truthy _ ht]
      rw [p1 (by rw [h3]; exact ht), h3]
    · intro ht
      have h3 : (if v.vuln_id = k then mergeExisting e v r else e).fixed_version
          = e.fixed_version := by
        by_cases hk : v.vuln_id = k <;> simp [hk, updateScalar_of_truthy _ ht]
      rw [p2 (by rw [h3]; exact ht), h3]
    · intro ht
      have h3 : (if v.vuln_id = k then mergeExisting e v r else e).description
          = e.description := by
        by_cases hk : v.vuln_id = k <;> simp [hk, updateScalar_of_truthy _ ht]
      rw [p3 (by rw [h3]; exact ht), h3]
    · intro ht
      have h3 : (if v.vuln_id = k then mergeExisting e v r else e).cwe = e.cwe := by
        by_cases hk : v.vuln_id = k <;> simp [hk, updateScalar_of_truthy _ ht]
      rw [p4 (by rw [h3]; exact ht), h3]

/-- C1 witness: merging `fA` (CVSS 7.5) and then `fB` (same `vuln_id`,
CVSS 9.0) leaves the final `cvss_score` equal to 7.5. -/
theorem claim1_scalar_first_wins_witness :
    ∃ e', lookup (deduplicate_and_merge (deduplicate_and_merge [] [fA] 1) [fB] 2)
        (Val.str "CVE-1") = some e' ∧ e'.cvss_score = Val.num (mkRat 15 2) := by
  obtain ⟨e', he', p1, _, _, _⟩ :=
    claim1_scalar_first_wins (deduplicate_and_merge [] [fA] 1) [fB] 2
      (Val.str "CVE-1") (initEntry fA 1) (by decide)
  refine ⟨e', he', ?_⟩
  rw [p1 (by decide)]
  decide

/-- C2: over any merge script starting from the empty collection, the final
`occurrences` counter of each `vuln_id` equals the sum of every contributing
finding's own occurrence count (`vuln.get('occurrences', 1)`), exact repeats
included; consequently it only depends on the multiset of findings, not on
the merge order or on how they are split across `deduplicate_and_merge`
calls. -/
theorem claim2_occurrences_sum :
    (∀ (s : List (List Finding × Nat)) (k : Val),
        occOf (runScript s) k =
          (((scriptFindings s).filter (fun v => v.vuln_id = k)).map Finding.occGet).sum) ∧
    (∀ (s₁ s₂ : List (List Finding × Nat)) (k : Val),
        (scriptFindings s₁).Perm (scriptFindings s₂) →
        occOf (runScript s₁) k = occOf (runScript s₂) k) := by
  have main : ∀ (s : List (List Finding × Nat)) (k : Val),
      occOf (runScript s) k =
        (((scriptFindings s).filter (fun v => v.vuln_id = k)).map Finding.occGet).sum := by
    intro s k
    rw [runScript, occOf_scriptFold]
    simp [occOf, lookup]
  refine ⟨main, fun s₁ s₂ k hp => ?_⟩
  rw [main, main]
  exact List.Perm.sum_eq (List.Perm.map _ (List.Perm.filter _ hp))

/-- C2 witness: one run merging `[fA, fB]` and two runs merging `fB` then
`fA` agree on the final counter, which is 2 (one per contributing record). -/
theorem claim2_occurrences_sum_witness :
    occOf (runScript [([fA, fB], 1)]) (Val.str "CVE-1") =
      occOf (runScript [([fB], 2), ([fA], 1)]) (Val.str "CVE-1") ∧
    occOf (runScript [([fA, fB], 1)]) (Val.str "CVE-1") = 2 := by
  constructor
  · exact claim2_occurrences_sum.2 [([fA, fB], 1)] [([fB], 2), ([fA], 1)]
      (Val.str "CVE-1") (by decide)
  · decide

/-- C9: merging a finding into an already-present entry changes at most
`affected_components`, the four first-wins scalars, `pipeline_runs` and
`occurrences`: the entry's `vuln_id`, `type`, `title`, `severity`, `source`
and the format-specific extras keep their previous values, and entries under
every other key are untouched entirely. -/
theorem claim9_merge_frame (c : List Entry) (v : Finding) (r : Nat) (e : Entry)
    (h : lookup c v.vuln_id = some e) :
    (∃ e', lookup (mergeOne c v r) v.vuln_id = some e' ∧
      e'.vuln_id = e.vuln_id ∧ e'.type = e.type ∧ e'.title = e.title ∧
      e'.severity = e.severity ∧ e'.source = e.source ∧
      e'.affected_version = e.affected_version ∧
      e'.affected_file = e.affected_file ∧
      e'.affected_line = e.affected_line ∧
      e'.affected_url = e.affected_url) ∧
    ∀ k, k ≠ v.vuln_id → lookup (mergeOne c v r) k = lookup c k := by
  constructor
  · refine ⟨mergeExisting e v r, ?_, rfl, rfl, rfl, rfl, rfl, rfl, rfl, rfl, rfl⟩
    simpa using lookup_mergeOne_of_some v r h
  · exact fun k hk => lookup_mergeOne_ne c v r k hk

/-- C9 witness: merging `fB` (which carries different `title`, `severity`,
`affected_version` and `source`) into the entry initialized from `fA` leaves
those fields at their previous values. -/
theorem claim9_merge_frame_witness :
    ∃ e', lookup (mergeOne [initEntry fA 1] fB 2) fB.vuln_id = some e' ∧
      e'.title = (initEntry fA 1).title ∧
      e'.severity = (initEntry fA 1).severity ∧
      e'.source = (initEntry fA 1).source := by
  obtain ⟨⟨e', he', _, _, h3, h4, h5, _, _, _, _⟩, _⟩ :=
    claim9_merge_frame [initEntry fA 1] fB 2 (initEntry fA 1) (by decide)
  exact ⟨e', he', h3, h4, h5⟩

/-! ## Duplicate-freeness and superset collection of components and runs -/

/-- Every entry of the collection has duplicate-free `affected_components`
and `pipeline_runs`. -/
def entriesOk (c : List Entry) : Prop :=
  ∀ e ∈ c, e.affected_components.Nodup ∧ e.pipeline_runs.Nodup

/-- The entry under `k` records component `comp` and run `r`. -/
def entryHas (c : List Entry) (k comp : Val) (r : Nat) : Prop :=
  ∃ e, lookup c k = some e ∧
    comp ∈ e.affected_components ∧ r ∈ e.pipeline_runs

theorem nodup_append_singleton {α : Type _} (l : List α) (x : α)
    (h : l.Nodup) (hx : x ∉ l) : (l ++ [x]).Nodup := by
  rw [List.nodup_append]
  refine ⟨h, List.nodup_singleton x, ?_⟩
  intro a ha hb
  rw [List.mem_singleton] at hb
  exact hx (hb ▸ ha)

theorem mem_mergeOne {c : List Entry} {v : Finding} {r : Nat} {e' : Entry}
    (h : e' ∈ mergeOne c v r) :
    e' ∈ c ∨ (∃ e ∈ c, e' = mergeExisting e v r) ∨ e' = initEntry v r := by
  induction c with
  | nil =>
    simp [mergeOne] at h
    exact Or.inr (Or.inr h)
  | cons e rest ih =>
    by_cases he : e.vuln_id = v.vuln_id
    · simp only [mergeOne, if_pos he, List.mem_cons] at h
      rcases h with h | h
      · exact Or.inr (Or.inl ⟨e, List.mem_cons_self e rest, h⟩)
      · exact Or.inl (List.mem_cons_of_mem e h)
    · simp only [mergeOne, if_neg he, List.mem_cons] at h
      rcases h with h | h
      · exact Or.inl (h ▸ List.mem_cons_self e rest)
      · rcases ih h with h2 | ⟨e2, he2, hh⟩ | h2
        · exact Or.inl (List.mem_cons_of_mem e h2)
        · exact Or.inr (Or.inl ⟨e2, List.mem_cons_of_mem e he2, hh⟩)
        · exact Or.inr (Or.inr h2)

theorem entriesOk_mergeExisting {e : Entry} (v : Finding) (r : Nat)
    (h1 : e.affected_components.Nodup) (h2 : e.pipeline_runs.Nodup) :
    (mergeExisting e v r).affected_components.Nodup ∧
      (mergeExisting e v r).pipeline_runs.Nodup := by
  constructor
  · rw [mergeExisting_affected_components]
    by_cases hm : v.affected_component ∈ e.affected_components
    · simpa [hm] using h1
    · rw [if_neg hm]
      exact nodup_append_singleton _ _ h1 hm
  · rw [mergeExisting_pipeline_runs]
    by_cases hm : r ∈ e.pipeline_runs
    · simpa [hm] using h2
    · rw [if_neg hm]
      exact nodup_append_singleton _ _ h2 hm

theorem entriesOk_mergeOne {c : List Entry} (v : Finding) (r : Nat)
    (h : entriesOk c) : entriesOk (mergeOne c v r) := by
  intro e' he'
  rcases mem_mergeOne he' with h2 | ⟨e, he, hh⟩ | h2
  · exact h e' h2
  · obtain ⟨h1, h2⟩ := h e he
    exact hh ▸ entriesOk_mergeExisting v r h1 h2
  · subst h2
    constructor
    · simp
    · simp

theorem entriesOk_dedup {c : List Entry} (vulns : List Finding) (r : Nat)
    (h : entriesOk c) : entriesOk (deduplicate_and_merge c vulns r) := by
  induction vulns generalizing c with
  | nil => simpa using h
  | cons v vs ih => exact ih (entriesOk_mergeOne v r h)

theorem entriesOk_scriptFold {c : List Entry} (s : List (List Finding × Nat))
    (h : entriesOk c) : entriesOk (scriptFold c s) := by
  induction s generalizing c with
  | nil => simpa using h
  | cons b rest ih => exact ih (entriesOk_dedup b.1 b.2 h)

theorem entryHas_mergeOne {c : List Entry} {k comp : Val} {r : Nat}
    (v : Finding) (r' : Nat) (h : entryHas c k comp r) :
    entryHas (mergeOne c v r') k comp r := by
  obtain ⟨e, he, h1, h2⟩ := h
  refine ⟨if v.vuln_id = k then mergeExisting e v r' else e,
    lookup_mergeOne_of_some v r' he, ?_, ?_⟩
  · by_cases hk : v.vuln_id = k
    · rw [if_pos hk, mergeExisting_affected_components]
      by_cases hm : v.affected_component ∈ e.affected_components
      · simpa [hm] using h1
      · rw [if_neg hm]
        exact List.mem_append_left _ h1
    · simpa [hk] using h1
  · by_cases hk : v.vuln_id = k
    · rw [if_pos hk, mergeExisting_pipeline_runs]
      by_cases hm : r' ∈ e.pipeline_runs
      · simpa [hm] using h2
      · rw [if_neg hm]
        exact List.mem_append_left _ h2
    · simpa [hk] using h2

theorem entryHas_mergeOne_self (c : List Entry) (v : Finding) (r : Nat) :
    entryHas (mergeOne c v r) v.vuln_id v.affected_component r := by
  cases h : lookup c v.vuln_id with
  | none =>
    refine ⟨initEntry v r, ?_, by simp, by simp⟩
    rw [lookup_mergeOne_self, h]
  | some e =>
    refine ⟨mergeExisting e v r, ?_, ?_, ?_⟩
    · rw [lookup_mergeOne_self, h]
    · rw [mergeExisting_affected_components]
      by_cases hm : v.affected_component ∈ e.affected_components
      · simp [hm]
      · simp [hm]
    · rw [mergeExisting_pipeline_runs]
      by_cases hm : r ∈ e.pipeline_runs
      · simp [hm]
      · simp [hm]

theorem entryHas_dedup {c : List Entry} {k comp : Val} {r : Nat}
    (vulns : List Finding) (r' : Nat) (h : entryHas c k comp r) :
    entryHas (deduplicate_and_merge c vulns r') k comp r := by
  induction vulns generalizing c with
  | nil => simpa using h
  | cons v vs ih => exact ih (entryHas_mergeOne v r' h)

theorem entryHas_dedup_self {c : List Entry} {vulns : List Finding} {v : Finding}
    (r : Nat) (hv : v ∈ vulns) :
    entryHas (deduplicate_and_merge c vulns r) v.vuln_id v.affected_component r := by
  induction vulns generalizing c with
  | nil => cases hv
  | cons w ws ih =>
    rcases List.mem_cons.mp hv with h | h
    · subst h
      exact entryHas_dedup ws r (entryHas_mergeOne_self c v r)
    · exact ih h

theorem entryHas_scriptFold {c : List Entry} {k comp : Val} {r : Nat}
    (s : List (List Finding × Nat)) (h : entryHas c k comp r) :
    entryHas (scriptFold c s) k comp r := by
  induction s generalizing c with
  | nil => simpa using h
  | cons b rest ih => exact ih (entryHas_dedup b.1 b.2 h)

theorem entryHas_scriptFold_self {c : List Entry} {s : List (List Finding × Nat)}
    {b : List Finding × Nat} {v : Finding} (hb : b ∈ s) (hv : v ∈ b.1) :
    entryHas (scriptFold c s) v.vuln_id v.affected_component b.2 := by
  induction s generalizing c with
  | nil => cases hb
  | cons b2 rest ih =>
    rcases List.mem_cons.mp hb with h | h
    · subst h
      exact entryHas_scriptFold rest (entryHas_dedup_self b.2 hv)
    · exact ih h

/-- C3: starting from the empty collection, every entry's
`affected_components` and `pipeline_runs` are duplicate-free, they contain
every contributing finding's `affected_component` and every `run_id` its key
was merged under, and duplicate-freeness is preserved by every single merge
step. -/
theorem claim3_components_runs_invariant :
    (∀ (s : List (List Finding × Nat)) (e : Entry), e ∈ runScript s →
        e.affected_components.Nodup ∧ e.pipeline_runs.Nodup) ∧
    (∀ (s : List (List Finding × Nat)) (b : List Finding × Nat) (v : Finding),
        b ∈ s → v ∈ b.1 →
        ∃ e, lookup (runScript s) v.vuln_id = some e ∧
          v.affected_component ∈ e.affected_components ∧ b.2 ∈ e.pipeline_runs) ∧
    (∀ (c : List Entry) (v : Finding) (r : Nat),
        entriesOk c → entriesOk (mergeOne c v r)) := by
  refine ⟨?_, ?_, fun c v r h => entriesOk_mergeOne v r h⟩
  · intro s e he
    exact entriesOk_scriptFold s (fun e' he' => absurd he' (List.not_mem_nil e')) e he
  · intro s b v hb hv
    exact entryHas_scriptFold_self hb hv

/-- C3 witness: after merging `fA` in run 1 and `fB` (same `vuln_id`) in
run 2, the single entry holds both components and both runs, without
duplicates. -/
theorem claim3_components_runs_invariant_witness :
    ∃ e, lookup (runScript [([fA], 1), ([fB], 2)]) fB.vuln_id = some e ∧
      fB.affected_component ∈ e.affected_components ∧ 2 ∈ e.pipeline_runs :=
  claim3_components_runs_invariant.2.1 [([fA], 1), ([fB], 2)] ([fB], 2) fB
    (by decide) (by decide)

/-! ## The `run` orchestration: missing-ID filtering and error propagation -/

theorem idsOk_mergeOne {c : List Entry} {v : Finding} {r : Nat}
    (hc : ∀ e ∈ c, e.vuln_id ≠ Val.null) (hv : v.vuln_id ≠ Val.null) :
    ∀ e ∈ mergeOne c v r, e.vuln_id ≠ Val.null := by
  intro e' he'
  rcases mem_mergeOne he' with h | ⟨e, he, hh⟩ | h
  · exact hc e' h
  · rw [hh, mergeExisting_vuln_id]
    exact hc e he
  · rw [h, initEntry_vuln_id]
    exact hv

theorem idsOk_dedup {c : List Entry} {vulns : List Finding} {r : Nat}
    (hc : ∀ e ∈ c, e.vuln_id ≠ Val.null) (hv : ∀ v ∈ vulns, v.vuln_id ≠ Val.null) :
    ∀ e ∈ deduplicate_and_merge c vulns r, e.vuln_id ≠ Val.null := by
  induction vulns generalizing c with
  | nil => simpa using hc
  | cons v vs ih =>
    rw [dedup_cons]
    exact ih (idsOk_mergeOne hc (hv v (List.mem_cons_self v vs)))
      (fun w hw => hv w (List.mem_cons_of_mem v hw))

theorem idsOk_runFold {files : List (ReportFile × Nat)} {acc c : List Entry}
    (hacc : ∀ e ∈ acc, e.vuln_id ≠ Val.null) (h : runFold acc files = .ok c) :
    ∀ e ∈ c, e.vuln_id ≠ Val.null := by
  induction files generalizing acc with
  | nil =>
    simp only [runFold] at h
    cases h
    exact hacc
  | cons p rest ih =>
    rw [runFold] at h
    cases hp : parse_report p.1 p.2 with
    | error msg => rw [hp] at h; cases h
    | ok vulns =>
      rw [hp] at h
      refine ih ?_ h
      refine idsOk_dedup hacc ?_
      intro v hv
      exact of_decide_eq_true (List.mem_filter.mp hv).2

/-- C4: whatever report files (of any format) `run` processes, a finding
whose `vuln_id` is `None`/missing never reaches the deduplicated collection:
on successful completion every persisted entry has a non-null `vuln_id`,
because `run` filters such findings out between extraction and merge. -/
theorem claim4_run_filters_missing_ids
    (files : List (ReportFile × Nat)) (c : List Entry)
    (h : run files = .ok c) :
    ∀ e ∈ c, e.vuln_id ≠ Val.null :=
  idsOk_runFold (fun e he => absurd he (List.not_mem_nil e)) h

/-- C4 witness: a Semgrep file containing one missing-ID result and one
proper result yields exactly the proper entry, whose `vuln_id` is not null. -/
theorem claim4_run_filters_missing_ids_witness :
    (initEntry (semgrepFinding smGood) 3).vuln_id ≠ Val.null :=
  claim4_run_filters_missing_ids [(ReportFile.semgrep (.ok smDoc), 3)]
    [initEntry (semgrepFinding smGood) 3] rfl
    (initEntry (semgrepFinding smGood) 3) (List.mem_singleton.mpr rfl)

theorem runFold_isOk_false {files : List (ReportFile × Nat)}
    {p : ReportFile × Nat} (acc : List Entry) (hp : p ∈ files)
    (h : (parse_report p.1 p.2).isOk = false) :
    (runFold acc files).isOk = false := by
  induction files generalizing acc with
  | nil => cases hp
  | cons q rest ih =>
    rw [runFold]
    rcases List.mem_cons.mp hp with hq | hq
    · subst hq
      cases hq2 : parse_report p.1 p.2 with
      | error msg => rfl
      | ok vulns => rw [hq2] at h; cases h
    · cases hq2 : parse_report q.1 q.2 with
      | error msg => rfl
      | ok vulns => exact ih _ hq

/-- C7: a file whose contents fail to parse as JSON is fatal for every
format except OWASP-ZAP: `parse_owasp_zap` catches the error and returns an
empty list, so the crawl continues exactly as if the file were absent, while
for trivy/grype/checkov/semgrep the error propagates and `run` aborts with no
output written. -/
theorem claim7_malformed_json :
    (∀ (msg : String) (r : Nat),
        parse_report (ReportFile.zap (.error msg)) r = .ok []) ∧
    (∀ (msg : String) (r : Nat),
        parse_report (ReportFile.trivy (.error msg)) r = .error msg ∧
        parse_report (ReportFile.grype (.error msg)) r = .error msg ∧
        parse_report (ReportFile.checkov (.error msg)) r = .error msg ∧
        parse_report (ReportFile.semgrep (.error msg)) r = .error msg) ∧
    (∀ (pre post : List (ReportFile × Nat)) (msg : String) (r : Nat)
        (acc : List Entry),
        runFold acc (pre ++ (ReportFile.zap (.error msg), r) :: post) =
          runFold acc (pre ++ post)) ∧
    (∀ (files : List (ReportFile × Nat)) (p : ReportFile × Nat),
        p ∈ files → (parse_report p.1 p.2).isOk = false →
        (run files).isOk = false) := by
  refine ⟨fun msg r => rfl, fun msg r => ⟨rfl, rfl, rfl, rfl⟩, ?_, ?_⟩
  · intro pre post msg r acc
    induction pre generalizing acc with
    | nil => rfl
    | cons q rest ih =>
      rw [List.cons_append, List.cons_append, runFold, runFold]
      cases hq : parse_report q.1 q.2 with
      | error m => rfl
      | ok vulns => exact ih _
  · intro files p hp h
    exact runFold_isOk_false [] hp h

/-- C7 witness: one malformed Semgrep file aborts the whole crawl, while a
malformed ZAP file parses to zero findings. -/
theorem claim7_malformed_json_witness :
    (run [(ReportFile.semgrep (.error "invalid json"), 3)]).isOk = false ∧
    parse_report (ReportFile.zap (.error "invalid json")) 3 = .ok [] := by
  constructor
  · exact claim7_malformed_json.2.2.2
      [(ReportFile.semgrep (.error "invalid json"), 3)]
      (ReportFile.semgrep (.error "invalid json"), 3)
      (List.mem_singleton.mpr rfl) rfl
  · exact claim7_malformed_json.1 "invalid json" 3

theorem runFold_ok_of_parses {files : List (ReportFile × Nat)}
    (acc : List Entry) (h : ∀ p ∈ files, (parse_report p.1 p.2).isOk = true) :
    ∃ c, runFold acc files = .ok c := by
  induction files generalizing acc with
  | nil => exact ⟨acc, rfl⟩
  | cons q rest ih =>
    rw [runFold]
    cases hq : parse_report q.1 q.2 with
    | error m =>
      have := h q (List.mem_cons_self q rest)
      rw [hq] at this
      cases this
    | ok vulns => exact ih _ (fun p hp => h p (List.mem_cons_of_mem q hp))

theorem runFold_ok_of_empty {files : List (ReportFile × Nat)}
    (acc : List Entry) (h : ∀ p ∈ files, parse_report p.1 p.2 = .ok []) :
    runFold acc files = .ok acc := by
  induction files generalizing acc with
  | nil => rfl
  | cons q rest ih =>
    rw [runFold, h q (List.mem_cons_self q rest)]
    exact ih _ (fun p hp => h p (List.mem_cons_of_mem q hp))

/-- C10: `run` persists `deduplicated_vulnerabilities.json` whenever the
crawl loop completes: with zero work items, or when every file parses but
yields zero findings, the written artifact is the empty collection (an empty
JSON array), not a missing file. -/
theorem claim10_always_writes_output :
    run [] = Except.ok ([] : List Entry) ∧
    (∀ files : List (ReportFile × Nat),
        (∀ p ∈ files, (parse_report p.1 p.2).isOk = true) →
        ∃ c, run files = .ok c) ∧
    (∀ files : List (ReportFile × Nat),
        (∀ p ∈ files, parse_report p.1 p.2 = .ok []) →
        run files = Except.ok ([] : List Entry)) :=
  ⟨rfl, fun _ h => runFold_ok_of_parses [] h, fun _ h => runFold_ok_of_empty [] h⟩

/-- C10 witness: a crawl consisting of a single unreadable ZAP file still
completes and writes the empty collection. -/
theorem claim10_always_writes_output_witness :
    ∃ c, run [(ReportFile.zap (.error "unreadable"), 2)] = .ok c :=
  claim10_always_writes_output.2.1 [(ReportFile.zap (.error "unreadable"), 2)]
    (by intro p hp; rw [List.mem_singleton] at hp; subst hp; rfl)

/-! ## What each extractor returns for missing-ID findings -/

/-- C5 counterexample: the OWASP ZAP extractor does NOT return its
missing-ID findings to the caller — `zapDocEx` makes it build exactly one
finding (whose `pluginid` is `None`) and return the empty list, so the
missing-ID filtering for this format happens inside the extractor, not
exclusively in the crawl orchestration step. -/
theorem claim5_counterexample :
    (zapRawFindings zapDocEx).length = 1 ∧ parse_owasp_zap zapDocEx 7 = [] := by
  exact ⟨rfl, rfl⟩

/-- C5 (amended): the trivy, grype, checkov and semgrep extractors return
one finding per input item — missing-ID findings included, they only count
and warn — leaving the filtering to `run`; the OWASP-ZAP extractor however
returns exactly the findings whose `pluginid` is non-null, itself filtering
the missing-ID ones out. -/
theorem claim5_extractors_amended :
    (∀ (d : TrivyDoc) (r : Nat),
        (parse_trivy d r).length =
          (d.Results.map (fun res => res.Vulnerabilities.length)).sum) ∧
    (∀ (d : GrypeDoc) (r : Nat), (parse_grype d r).length = d.matches'.length) ∧
    (∀ (d : CheckovDoc) (r : Nat),
        (parse_checkov d r).length = d.results_failed_checks.length) ∧
    (∀ (d : SemgrepDoc) (r : Nat), (parse_semgrep d r).length = d.results.length) ∧
    (∀ (d : ZapDoc) (r : Nat),
        parse_owasp_zap d r =
          (zapRawFindings d).filter (fun v => v.vuln_id ≠ Val.null)) := by
  refine ⟨?_, fun d r => by simp [parse_grype], fun d r => by simp [parse_checkov],
    fun d r => by simp [parse_semgrep], ?_⟩
  · intro d r
    simp [parse_trivy, Function.comp_def, List.length_map]
  · intro d r
    unfold parse_owasp_zap
    by_cases h : ((zapRawFindings d).filter (fun v => v.vuln_id = Val.null)).length > 0
    · simp [h]
    · rw [if_neg h]
      have h0 : (zapRawFindings d).filter (fun v => v.vuln_id = Val.null) = [] := by
        rcases List.eq_nil_or_concat ((zapRawFindings d).filter
          (fun v => v.vuln_id = Val.null)) with he | ⟨l2, a, ha⟩
        · exact he
        · exact absurd (by rw [ha]; simp) h
      have hall : ∀ v ∈ zapRawFindings d, v.vuln_id ≠ Val.null := by
        intro v hv
        by_contra hn
        have : v ∈ (zapRawFindings d).filter (fun v => v.vuln_id = Val.null) :=
          List.mem_filter.mpr ⟨hv, by simp [hn]⟩
        rw [h0] at this
        exact List.not_mem_nil v this
      rw [List.filter_eq_self.mpr (fun v hv => by simp [hall v hv])]

/-! ## The crawler's work-list membership -/

theorem crawl_inner (root : String) (fns : List String)
    (acc : List (String × Option String × Nat)) :
    fns.foldl
      (fun files filename =>
        if filename.endsWith ".json" then
          let file_path := pathJoin root filename
          let report_type := detect_report_format file_path
          let pipeline_run := pathName root
          if str_isdigit pipeline_run then
            files ++ [(file_path, report_type, digitsToNat pipeline_run)]
          else files
        else files) acc
      = acc ++ (fns.map (crawlFile root)).flatten := by
  induction fns generalizing acc with
  | nil => simp
  | cons f rest ih =>
    rw [List.foldl_cons, ih]
    by_cases h1 : f.endsWith ".json"
    · by_cases h2 : str_isdigit (pathName root)
      · simp [crawlFile, h1, h2]
      · simp [crawlFile, h1, h2]
    · simp [crawlFile, h1]

theorem crawl_reports_eq (walk : List WalkEntry) :
    crawl_reports walk =
      (walk.map (fun w => (w.filenames.map (crawlFile w.root)).flatten)).flatten := by
  suffices h : ∀ (ws : List WalkEntry) (acc : List (String × Option String × Nat)),
      ws.foldl
        (fun files w =>
          w.filenames.foldl
            (fun files filename =>
              if filename.endsWith ".json" then
                let file_path := pathJoin w.root filename
                let report_type := detect_report_format file_path
                let pipeline_run := pathName w.root
                if str_isdigit pipeline_run then
                  files ++ [(file_path, report_type, digitsToNat pipeline_run)]
                else files
              else files)
            files) acc
        = acc ++ (ws.map (fun w => (w.filenames.map (crawlFile w.root)).flatten)).flatten by
    simpa using h walk []
  intro ws
  induction ws with
  | nil => simp
  | cons w rest ih =>
    intro acc
    rw [List.foldl_cons, crawl_inner, ih]
    simp

theorem mem_crawlFile {root f : String} {x : String × Option String × Nat} :
    x ∈ crawlFile root f ↔
      f.endsWith ".json" = true ∧ str_isdigit (pathName root) = true ∧
        x = (pathJoin root f, detect_report_format (pathJoin root f),
          digitsToNat (pathName root)) := by
  unfold crawlFile
  by_cases h1 : f.endsWith ".json"
  · by_cases h2 : str_isdigit (pathName root)
    · simp [h1, h2]
    · simp [h1, h2]
  · simp [h1]

/-- C6: a work item is in `crawl_reports`' output iff it comes from a walked
file whose name ends in `.json` AND whose immediate containing directory's
name satisfies `isdigit()` — for ASCII names, exactly "parses as a
nonnegative integer".  Files under non-numeric directory names (e.g.
`"latest"`) contribute nothing, with no error. -/
theorem claim6_crawl_membership (walk : List WalkEntry)
    (p : String) (t : Option String) (r : Nat) :
    (p, t, r) ∈ crawl_reports walk ↔
      ∃ w ∈ walk, ∃ f ∈ w.filenames,
        f.endsWith ".json" = true ∧ str_isdigit (pathName w.root) = true ∧
        p = pathJoin w.root f ∧ t = detect_report_format (pathJoin w.root f) ∧
        r = digitsToNat (pathName w.root) := by
  rw [crawl_reports_eq]
  simp only [List.mem_flatten, List.mem_map]
  constructor
  · rintro ⟨l, ⟨w, hw, rfl⟩, hx⟩
    rw [List.mem_flatten] at hx
    obtain ⟨l2, hl2, hx2⟩ := hx
    rw [List.mem_map] at hl2
    obtain ⟨f, hf, rfl⟩ := hl2
    obtain ⟨h1, h2, h3⟩ := mem_crawlFile.mp hx2
    rw [Prod.mk.injEq, Prod.mk.injEq] at h3
    exact ⟨w, hw, f, hf, h1, h2, h3.1, h3.2.1, h3.2.2⟩
  · rintro ⟨w, hw, f, hf, h1, h2, h3, h4, h5⟩
    refine ⟨(w.filenames.map (crawlFile w.root)).flatten, ⟨w, hw, rfl⟩, ?_⟩
    rw [List.mem_flatten]
    refine ⟨crawlFile w.root f, List.mem_map.mpr ⟨f, hf, rfl⟩, ?_⟩
    rw [mem_crawlFile]
    exact ⟨h1, h2, by rw [h3, h4, h5]⟩

/-! ## The generation loop: per-item success and failure bookkeeping -/

theorem genStep_processed (st : GenState) (it : String × HttpResult) :
    (genStep st it).policy_ids_processed =
      st.policy_ids_processed ++ [ItemRecord.mk it.1 (call_ollama it.2).2] := by
  simp only [genStep]
  split
  · rfl
  · rfl

theorem genStep_policies (st : GenState) (it : String × HttpResult) :
    (genStep st it).generated_policies =
      if (call_ollama it.2).2 && truthyOptStr (call_ollama it.2).1 then
        dictInsert st.generated_policies it.1 ((call_ollama it.2).1.getD "")
      else st.generated_policies := by
  simp only [genStep]
  split
  · rfl
  · rfl

theorem genFold_processed (items : List (String × HttpResult)) (st : GenState) :
    (items.foldl genStep st).policy_ids_processed =
      st.policy_ids_processed ++
        items.map (fun it => ItemRecord.mk it.1 (call_ollama it.2).2) := by
  induction items generalizing st with
  | nil => simp
  | cons it rest ih =>
    rw [List.foldl_cons, ih, genStep_processed]
    simp

theorem mem_keys_dictInsert {l : List (String × String)} {k v a : String}
    (h : a ∈ (dictInsert l k v).map Prod.fst) : a ∈ l.map Prod.fst ∨ a = k := by
  unfold dictInsert at h
  split at h
  · rw [List.map_map, List.mem_map] at h
    obtain ⟨p, hp, he⟩ := h
    by_cases hk : p.1 = k
    · simp [hk] at he
      exact Or.inr he.symm
    · simp [hk] at he
      exact Or.inl (he ▸ List.mem_map.mpr ⟨p, hp, rfl⟩)
  · rw [List.map_append, List.mem_append] at h
    rcases h with h | h
    · exact Or.inl h
    · simp at h
      exact Or.inr h

theorem mem_dictInsert_of_ne {l : List (String × String)} {k v a b : String}
    (hne : a ≠ k) (h : (a, b) ∈ l) : (a, b) ∈ dictInsert l k v := by
  unfold dictInsert
  split
  · rw [List.mem_map]
    exact ⟨(a, b), h, by simp [hne]⟩
  · exact List.mem_append_left _ h

theorem mem_dictInsert_self {l : List (String × String)} {k v : String}
    (h : k ∉ l.map Prod.fst) : (k, v) ∈ dictInsert l k v := by
  unfold dictInsert
  have hany : l.any (fun p => p.1 = k) = false := by
    rw [List.any_eq_false]
    intro p hp
    simp only [decide_eq_true_eq]
    intro he
    exact h (List.mem_map.mpr ⟨p, hp, he⟩)
  rw [hany]
  simp

theorem gen_policies_preserved {items : List (String × HttpResult)}
    {st : GenState} {vid body : String}
    (h : (vid, body) ∈ st.generated_policies) (hk : vid ∉ items.map Prod.fst) :
    (vid, body) ∈ (items.foldl genStep st).generated_policies := by
  induction items generalizing st with
  | nil => simpa using h
  | cons it rest ih =>
    rw [List.foldl_cons]
    refine ih ?_ (fun hm => hk (List.mem_cons_of_mem _ hm))
    rw [genStep_policies]
    split
    · exact mem_dictInsert_of_ne
        (fun he => hk (he ▸ List.mem_cons_self _ _)) h
    · exact h

theorem gen_keys_absent {items : List (String × HttpResult)}
    {st : GenState} {vid : String}
    (hst : vid ∉ st.generated_policies.map Prod.fst)
    (hfail : ∀ r, (vid, r) ∈ items →
      ((call_ollama r).2 && truthyOptStr (call_ollama r).1) = false) :
    vid ∉ (items.foldl genStep st).generated_policies.map Prod.fst := by
  induction items generalizing st with
  | nil => simpa using hst
  | cons it rest ih =>
    rw [List.foldl_cons]
    refine ih ?_ (fun r hr => hfail r (List.mem_cons_of_mem _ hr))
    rw [genStep_policies]
    split
    · rename_i hcond
      intro hmem
      rcases mem_keys_dictInsert hmem with hm | hm
      · exact hst hm
      · have hcall : ((call_ollama it.2).2 && truthyOptStr (call_ollama it.2).1) = false := by
          refine hfail it.2 ?_
          have hpair : (vid, it.2) = it := by rw [hm]
          rw [hpair]
          exact List.mem_cons_self _ _
        rw [hcall] at hcond
        simp at hcond
    · exact hst

theorem genStep_successful (st : GenState) (it : String × HttpResult) :
    (genStep st it).successful_generations =
      st.successful_generations +
        (if (call_ollama it.2).2 && truthyOptStr (call_ollama it.2).1 then 1 else 0) := by
  simp only [genStep]
  split
  · rename_i h
    simp [h]
  · rename_i h
    simp [h]

theorem genStep_failed (st : GenState) (it : String × HttpResult) :
    (genStep st it).failed_generations =
      st.failed_generations +
        (if (call_ollama it.2).2 && truthyOptStr (call_ollama it.2).1 then 0 else 1) := by
  simp only [genStep]
  split
  · rename_i h
    simp [h]
  · rename_i h
    simp [h]

theorem genFold_successful (items : List (String × HttpResult)) (st : GenState) :
    (items.foldl genStep st).successful_generations =
      st.successful_generations +
        (items.filter
          (fun it => (call_ollama it.2).2 && truthyOptStr (call_ollama it.2).1)).length := by
  induction items generalizing st with
  | nil => simp
  | cons it rest ih =>
    rw [List.foldl_cons, ih, genStep_successful, List.filter_cons]
    cases h : ((call_ollama it.2).2 && truthyOptStr (call_ollama it.2).1)
    all_goals simp [h]
    all_goals omega

theorem genFold_failed (items : List (String × HttpResult)) (st : GenState) :
    (items.foldl genStep st).failed_generations =
      st.failed_generations +
        (items.filter
          (fun it => !((call_ollama it.2).2 && truthyOptStr (call_ollama it.2).1))).length := by
  induction items generalizing st with
  | nil => simp
  | cons it rest ih =>
    rw [List.foldl_cons, ih, genStep_failed, List.filter_cons]
    cases h : ((call_ollama it.2).2 && truthyOptStr (call_ollama it.2).1)
    all_goals simp [h]
    all_goals omega

theorem nodup_keys_unique {α β : Type _} {l : List (α × β)}
    (hnd : (l.map Prod.fst).Nodup) {a : α} {b1 b2 : β}
    (h1 : (a, b1) ∈ l) (h2 : (a, b2) ∈ l) : b1 = b2 := by
  induction l with
  | nil => cases h1
  | cons p rest ih =>
    rw [List.map_cons, List.nodup_cons] at hnd
    rcases List.mem_cons.mp h1 with e1 | m1
    · rcases List.mem_cons.mp h2 with e2 | m2
      · rw [← e1] at e2
        exact (Prod.mk.injEq _ _ _ _ ▸ e2).2.symm
      · exact absurd (List.mem_map.mpr ⟨(a, b2), m2, by rw [← e1]⟩) hnd.1
    · rcases List.mem_cons.mp h2 with e2 | m2
      · exact absurd (List.mem_map.mpr ⟨(a, b1), m1, by rw [← e2]⟩) hnd.1
      · exact ih hnd.2 m1 m2

theorem gen_policies_mem {items : List (String × HttpResult)}
    {st : GenState} {vid body : String}
    (hitem : (vid, HttpResult.response 200 (some body)) ∈ items) (hbody : body ≠ "")
    (hnd : (items.map Prod.fst).Nodup)
    (hst : vid ∉ st.generated_policies.map Prod.fst) :
    (vid, body) ∈ (items.foldl genStep st).generated_policies := by
  induction items generalizing st with
  | nil => cases hitem
  | cons it rest ih =>
    rw [List.foldl_cons]
    rcases List.mem_cons.mp hitem with h | h
    · subst h
      have hrestk : vid ∉ rest.map Prod.fst := by
        rw [List.map_cons, List.nodup_cons] at hnd
        exact hnd.1
      refine gen_policies_preserved ?_ hrestk
      rw [genStep_policies]
      have hcall : call_ollama (HttpResult.response 200 (some body)) = (some body, true) := rfl
      rw [hcall]
      simp only [truthyOptStr]
      rw [if_pos (by simp [hbody])]
      exact mem_dictInsert_self hst
    · have hne : vid ≠ it.1 := by
        intro he
        rw [List.map_cons, List.nodup_cons] at hnd
        exact hnd.1 (he ▸ List.mem_map.mpr ⟨(vid, HttpResult.response 200 (some body)), h, rfl⟩)
      refine ih h (by rw [List.map_cons, List.nodup_cons] at hnd; exact hnd.2) ?_
      rw [genStep_policies]
      split
      · intro hmem
        rcases mem_keys_dictInsert hmem with hm | hm
        · exact hst hm
        · exact hne hm
      · exact hst

/-- C8 counterexample: an HTTP 200 response whose JSON body carries an empty
`response` string — `call_ollama` reports success, yet
`if success and response` is false, so the entry is absent from
`generated_policies` (and even counted as a failed generation), refuting
"on an HTTP 200 response ... the entry appears in the generated-policies
output" as stated. -/
theorem claim8_counterexample :
    (generate_policies [("CVE-1", HttpResult.response 200 (some ""))]).generated_policies
        = [] ∧
    (generate_policies [("CVE-1", HttpResult.response 200 (some ""))]).policy_ids_processed
        = [ItemRecord.mk "CVE-1" true] ∧
    (generate_policies [("CVE-1", HttpResult.response 200 (some ""))]).failed_generations
        = 1 :=
  ⟨rfl, rfl, rfl⟩

/-- C8 (amended): every entry is processed exactly once, in order, the run
continuing past failures with no retry; an HTTP 200 response with a
NON-EMPTY response string puts the string in the generated-policies output;
any call `call_ollama` reports as failed (non-200, timeout, exception) leaves
the entry absent from the output and recorded with `success=false`; an HTTP
200 whose response string is empty or missing is recorded `success=true` in
the per-item metadata but the entry is likewise absent from the output; and
the successful/failed counters count exactly the items that do / do not pass
the `if success and response` test (so every empty-200 or failed item is
counted as a failed generation). -/
theorem claim8_generation_amended (items : List (String × HttpResult))
    (hnd : (items.map Prod.fst).Nodup) :
    ((generate_policies items).policy_ids_processed =
      items.map (fun it => ItemRecord.mk it.1 (call_ollama it.2).2)) ∧
    (∀ vid body, (vid, HttpResult.response 200 (some body)) ∈ items → body ≠ "" →
      (vid, body) ∈ (generate_policies items).generated_policies) ∧
    (∀ vid r, (vid, r) ∈ items → (call_ollama r).2 = false →
      ItemRecord.mk vid false ∈ (generate_policies items).policy_ids_processed ∧
      vid ∉ (generate_policies items).generated_policies.map Prod.fst) ∧
    (∀ vid (body : Option String),
      (vid, HttpResult.response 200 body) ∈ items → body.getD "" = "" →
      ItemRecord.mk vid true ∈ (generate_policies items).policy_ids_processed ∧
      vid ∉ (generate_policies items).generated_policies.map Prod.fst) ∧
    ((generate_policies items).successful_generations =
      (items.filter
        (fun it => (call_ollama it.2).2 && truthyOptStr (call_ollama it.2).1)).length) ∧
    ((generate_policies items).failed_generations =
      (items.filter
        (fun it => !((call_ollama it.2).2 && truthyOptStr (call_ollama it.2).1))).length) := by
  refine ⟨by simpa using genFold_processed items ⟨[], [], 0, 0⟩, ?_, ?_, ?_,
    by simpa using genFold_successful items ⟨[], [], 0, 0⟩,
    by simpa using genFold_failed items ⟨[], [], 0, 0⟩⟩
  · intro vid body hitem hbody
    exact gen_policies_mem hitem hbody hnd (by simp)
  · intro vid r hitem hfail
    constructor
    · rw [generate_policies, genFold_processed]
      refine List.mem_append_right _ (List.mem_map.mpr ⟨(vid, r), hitem, ?_⟩)
      rw [hfail]
    · refine gen_keys_absent (by simp) ?_
      intro r2 h2
      have he : r2 = r := nodup_keys_unique hnd h2 hitem
      rw [he, hfail]
      rfl
  · intro vid body hitem hbody
    constructor
    · rw [generate_policies, genFold_processed]
      refine List.mem_append_right _ (List.mem_map.mpr ⟨(vid, .response 200 body), hitem, ?_⟩)
      simp [call_ollama]
    · refine gen_keys_absent (by simp) ?_
      intro r2 h2
      have he : r2 = HttpResult.response 200 body := nodup_keys_unique hnd h2 hitem
      rw [he]
      simp [call_ollama, truthyOptStr, hbody]

/-- C8 witness for the amended claim: a 200 response with a non-empty string
lands in the output, a timed-out entry is recorded `success=false` and absent
from the output, and a 200 response with an empty string is recorded
`success=true` yet absent from the output. -/
theorem claim8_generation_amended_witness :
    ("CVE-1", "policy text") ∈
      (generate_policies [("CVE-1", HttpResult.response 200 (some "policy text")),
        ("CVE-2", HttpResult.timeout)]).generated_policies ∧
    ItemRecord.mk "CVE-2" false ∈
      (generate_policies [("CVE-1", HttpResult.response 200 (some "policy text")),
        ("CVE-2", HttpResult.timeout)]).policy_ids_processed ∧
    ItemRecord.mk "CVE-3" true ∈
      (generate_policies
        [("CVE-3", HttpResult.response 200 (some ""))]).policy_ids_processed ∧
    "CVE-3" ∉
      (generate_policies
        [("CVE-3", HttpResult.response 200 (some ""))]).generated_policies.map Prod.fst := by
  have h := claim8_generation_amended
    [("CVE-1", HttpResult.response 200 (some "policy text")),
      ("CVE-2", HttpResult.timeout)] (by decide)
  have h3 := claim8_generation_amended
    [("CVE-3", HttpResult.response 200 (some ""))] (by decide)
  have h4 := h3.2.2.2.1 "CVE-3" (some "") (by decide) (by rfl)
  exact ⟨h.2.1 "CVE-1" "policy text" (by decide) (by decide),
    (h.2.2.1 "CVE-2" HttpResult.timeout (by decide) (by decide)).1,
    h4.1, h4.2⟩

end Report
